import Mathlib

/-!
Shallow embedding of the checkout GraphQL resolver module
(`src/unnamed/part_000` of FlavioOdas/store-graphql) together with the
small pieces of its environment that the resolvers observe.

Modelling conventions:
* JavaScript string-or-missing values are modelled by `JSVal`
  (constructors for `undefined`, for `null` and for a string), because the
  source distinguishes `null` from `undefined` under strict (in)equality
  and under object-destructuring defaults.
* Asynchronous upstream calls are modelled environment-style: each
  upstream response is a field of an environment record, of type
  `Except String α` (an `error` is a rejected promise).  The calls a
  resolver issues to the checkout client are recorded in a `List Call`
  trace, in issue order.
* `sessionQueries.getSession` is an `async` resolver, so calling it
  yields either a synchronous throw or a promise that later settles;
  that call is therefore modelled as `Except String (Except String α)`:
  the outer layer is the synchronous behaviour of the call expression,
  the inner layer the settled promise.
-/

namespace StoreGraphql

/-- A JavaScript value that is either `undefined`, `null`, or a string.
Used for UTM/marketing fields and marketing-tag entries. -/
inductive JSVal where
  | undefined
  | null
  | str (s : String)
deriving DecidableEq

/-- JavaScript truthiness of a `JSVal`: only a non-empty string is truthy. -/
def JSVal.truthy : JSVal → Bool
  | .str s => s ≠ ""
  | _ => false

/-- Object-destructuring default `= null`: it replaces `undefined` (an absent
field) by `null`, and leaves every other value alone. -/
def defNull : JSVal → JSVal
  | .undefined => .null
  | v => v

/-! ### Session fields (`SessionFields` from `../session/sessionResolver`)

The session module is not under `src/`; per the spec, `SessionFields` carries
the ephemeral per-request UTM/marketing parameters.  Only the two parameter
groups read by this module are modelled structurally; `hasOtherKeys` records
whether the object carries any further own keys (the source only tests
`Object.keys(sessionData).length > 0`). -/

/-- The `utmParams` group of the session: `source`, `campaign`, `medium`. -/
structure UtmParams where
  source : JSVal
  campaign : JSVal
  medium : JSVal
deriving DecidableEq

/-- The `utmiParams` group of the session: `campaign`, `part`, `page`. -/
structure UtmiParams where
  campaign : JSVal
  part : JSVal
  page : JSVal
deriving DecidableEq

/-- Modelled from the spec: `SessionFields` (from `../session/sessionResolver`,
not under `src/`) — the per-request UTM/marketing parameters, plus a flag for
the presence of any other own keys on the object. -/
structure SessionFields where
  utmParams : Option UtmParams
  utmiParams : Option UtmiParams
  hasOtherKeys : Bool
deriving DecidableEq

/-- The empty session object `{}` produced by `getSession`'s catch branch. -/
def emptySession : SessionFields := ⟨none, none, false⟩

/-- `Object.keys(sessionData).length > 0` on the modelled session object. -/
def SessionFields.isNonEmptyObj (s : SessionFields) : Bool :=
  s.utmParams.isSome || s.utmiParams.isSome || s.hasOtherKeys

/-- Ramda `path ['utmParams', f]`: `undefined` when the group is absent. -/
def pathUtm (s : SessionFields) (f : UtmParams → JSVal) : JSVal :=
  match s.utmParams with
  | some p => f p
  | none => .undefined

/-- Ramda `path ['utmiParams', f]`: `undefined` when the group is absent. -/
def pathUtmi (s : SessionFields) (f : UtmiParams → JSVal) : JSVal :=
  match s.utmiParams with
  | some p => f p
  | none => .undefined

/-- The record built by `getSessionMarketingParams`. -/
structure SessionMarketingParams where
  utm_source : JSVal
  utm_campaign : JSVal
  utm_medium : JSVal
  utmi_campaign : JSVal
  utmi_part : JSVal
  utmi_page : JSVal
deriving DecidableEq

/-- `getSessionMarketingParams` from the source: six Ramda `path` lookups into
the session data. -/
def getSessionMarketingParams (sesionData : SessionFields) : SessionMarketingParams :=
  { utm_source := pathUtm sesionData (·.source)
    utm_campaign := pathUtm sesionData (·.campaign)
    utm_medium := pathUtm sesionData (·.medium)
    utmi_campaign := pathUtmi sesionData (·.campaign)
    utmi_part := pathUtmi sesionData (·.part)
    utmi_page := pathUtmi sesionData (·.page) }

/-! ### Order-form marketing data -/

/-- `OrderFormMarketingData`: the stored marketing object of an order form.
Marketing tags are a JS array of values (or an absent/null field, `none`). -/
structure OrderFormMarketingData where
  utmCampaign : JSVal
  utmMedium : JSVal
  utmSource : JSVal
  utmiCampaign : JSVal
  utmiPart : JSVal
  utmipage : JSVal
  marketingTags : Option (List JSVal)
deriving DecidableEq

/-- Field access through `orderFormMarketingTags || {}`: a `null` object
yields `{}`, whose fields are all `undefined`. -/
def spreadField (o : Option OrderFormMarketingData) (f : OrderFormMarketingData → JSVal) : JSVal :=
  match o with
  | some m => f m
  | none => .undefined

/-- `shouldUpdateMarketingData` from the source: truthiness of
`(params.utm_source || …) && (utmCampaign !== params.utm_campaign || …)`,
where the six stored fields are destructured with `= null` defaults out of
`orderFormMarketingTags || {}` and the session side comes from
`getSessionMarketingParams`. -/
def shouldUpdateMarketingData (orderFormMarketingTags : Option OrderFormMarketingData)
    (sessionData : SessionFields) : Bool :=
  let utmCampaign := defNull (spreadField orderFormMarketingTags (·.utmCampaign))
  let utmMedium := defNull (spreadField orderFormMarketingTags (·.utmMedium))
  let utmSource := defNull (spreadField orderFormMarketingTags (·.utmSource))
  let utmiCampaign := defNull (spreadField orderFormMarketingTags (·.utmiCampaign))
  let utmiPart := defNull (spreadField orderFormMarketingTags (·.utmiPart))
  let utmipage := defNull (spreadField orderFormMarketingTags (·.utmipage))
  let params := getSessionMarketingParams sessionData
  (params.utm_source.truthy || params.utm_campaign.truthy || params.utm_medium.truthy ||
      params.utmi_campaign.truthy || params.utmi_part.truthy || params.utmi_page.truthy) &&
    (decide (utmCampaign ≠ params.utm_campaign) || decide (utmMedium ≠ params.utm_medium) ||
      decide (utmSource ≠ params.utm_source) || decide (utmiCampaign ≠ params.utmi_campaign) ||
      decide (utmiPart ≠ params.utmi_part) || decide (utmipage ≠ params.utmi_page))

/-- The six session-side UTM values, in the order of the source's strict
inequality comparisons. -/
def sessionParams (sessionData : SessionFields) : List JSVal :=
  let params := getSessionMarketingParams sessionData
  [params.utm_campaign, params.utm_medium, params.utm_source,
    params.utmi_campaign, params.utmi_part, params.utmi_page]

/-- The six stored UTM values after the `= null` destructuring defaults, in
the order of the source's strict inequality comparisons. -/
def storedParams (orderFormMarketingTags : Option OrderFormMarketingData) : List JSVal :=
  [defNull (spreadField orderFormMarketingTags (·.utmCampaign)),
    defNull (spreadField orderFormMarketingTags (·.utmMedium)),
    defNull (spreadField orderFormMarketingTags (·.utmSource)),
    defNull (spreadField orderFormMarketingTags (·.utmiCampaign)),
    defNull (spreadField orderFormMarketingTags (·.utmiPart)),
    defNull (spreadField orderFormMarketingTags (·.utmipage))]

/-- Reading of C2's decision rule in the claim's own terms: at least one of
the six session UTM fields is non-null (i.e. an actual string, possibly
empty), and at least one of the six fields differs from the corresponding
stored one, where a field that is absent on both sides does not differ. -/
def claimShouldUpdateMarketingData (orderFormMarketingTags : Option OrderFormMarketingData)
    (sessionData : SessionFields) : Bool :=
  let toOpt : JSVal → Option String := fun v =>
    match v with
    | .str s => some s
    | _ => none
  let sess := sessionParams sessionData
  let stored := (storedParams orderFormMarketingTags).map toOpt
  (sess.any fun v => (toOpt v).isSome) &&
    decide (stored ≠ sess.map toOpt)

/-- The payload built inside `addItem` when the marketing data must be
updated: spread of `marketingData || {}`, then (if the session object is
non-empty) the six UTM fields overwritten from the session, then the
`marketingTags` normalization (`delete` when `== null`, `filter(Boolean)`
when it is an array). -/
def buildNewMarketingData (marketingData : Option OrderFormMarketingData)
    (sessionData : SessionFields) : OrderFormMarketingData :=
  let base : OrderFormMarketingData :=
    { utmCampaign := spreadField marketingData (·.utmCampaign)
      utmMedium := spreadField marketingData (·.utmMedium)
      utmSource := spreadField marketingData (·.utmSource)
      utmiCampaign := spreadField marketingData (·.utmiCampaign)
      utmiPart := spreadField marketingData (·.utmiPart)
      utmipage := spreadField marketingData (·.utmipage)
      marketingTags := marketingData.bind (·.marketingTags) }
  let base2 :=
    if sessionData.isNonEmptyObj then
      { base with
        utmCampaign := pathUtm sessionData (·.campaign)
        utmMedium := pathUtm sessionData (·.medium)
        utmSource := pathUtm sessionData (·.source)
        utmiCampaign := pathUtmi sessionData (·.campaign)
        utmiPart := pathUtmi sessionData (·.part)
        utmipage := pathUtmi sessionData (·.page) }
    else base
  match base2.marketingTags with
  | none => { base2 with marketingTags := none }
  | some tags => { base2 with marketingTags := some (tags.filter JSVal.truthy) }

/-! ### Order forms -/

/-- `clientPreferencesData` of an order form.  Only `locale` is read or
written by this module. -/
structure ClientPreferencesData where
  locale : Option String
deriving DecidableEq

/-- A line item of a fetched order form (`previousItems` in `addItem`).  Its
contents are opaque to the code under verification. -/
structure OrderFormItem where
  uniqueId : String
deriving DecidableEq

/-- The order-form snapshot returned by the checkout client. -/
structure OrderForm where
  orderFormId : String
  value : Int
  items : List OrderFormItem
  marketingData : Option OrderFormMarketingData
  clientPreferencesData : Option ClientPreferencesData
  isCheckedIn : Bool
  checkedInPickupPointId : Option String
deriving DecidableEq

/-! ### Cookie handling -/

/-- JS `cookie.split('=')[0]`: the part of the line before the first `=`
(the whole line when it has no `=`). -/
def cookieKey (cookie : String) : String :=
  ⟨cookie.data.takeWhile (· ≠ '=')⟩

/-- `SetCookieWhitelist = [CHECKOUT_COOKIE, '.ASPXAUTH']`.  The value of the
`CHECKOUT_COOKIE` constant is imported from `../../utils`, which is not under
`src/`, so it is kept as a parameter. -/
def SetCookieWhitelist (checkoutCookie : String) : List String :=
  [checkoutCookie, ".ASPXAUTH"]

/-- `isWhitelistedSetCookie` from the source. -/
def isWhitelistedSetCookie (checkoutCookie : String) (cookie : String) : Bool :=
  (SetCookieWhitelist checkoutCookie).contains (cookieKey cookie)

/-- JS regex `.` (no `s` flag): any character except the four line
terminators. -/
def dotChar (c : Char) : Bool :=
  !(c = '\n' || c = '\r' || c = '\u2028' || c = '\u2029')

/-- The regex engine after `.+?` has consumed at least one character: it
first tries `;`, then end-of-input `$`, and otherwise lazily consumes one
more `.` character.  Returns the input remaining after the whole match. -/
def lazyThenSemiOrEnd : List Char → Option (List Char)
  | [] => some []
  | c :: cs => if c = ';' then some cs else if dotChar c then lazyThenSemiOrEnd cs else none

/-- The `.+?(;|$)` part of the regex: at least one `.` character, then
`lazyThenSemiOrEnd`. -/
def dotPlusLazy : List Char → Option (List Char)
  | [] => none
  | c :: cs => if dotChar c then lazyThenSemiOrEnd cs else none

/-- Attempt to match `domain=.+?(;|$)` at the head of the list, returning
the remainder after the match. -/
def tryMatchDomain : List Char → Option (List Char)
  | 'd' :: 'o' :: 'm' :: 'a' :: 'i' :: 'n' :: '=' :: rest => dotPlusLazy rest
  | _ => none

/-- The literal `domain=` of the regex and of the replacement string. -/
def dmn : List Char := ['d', 'o', 'm', 'a', 'i', 'n', '=']

/-- JS `String.prototype.replace` with the non-global regex
`domain=.+?(;|$)` and replacement `domain=${host};`: the leftmost match is
replaced, everything else is kept. -/
def scanReplaceDomain (host : List Char) : List Char → List Char
  | [] => []
  | c :: cs =>
    match tryMatchDomain (c :: cs) with
    | some suffix => dmn ++ host ++ ';' :: suffix
    | none => c :: scanReplaceDomain host cs

/-- `replaceDomain` from the source:
`cookie.replace(/domain=.+?(;|$)/, domain=host;)`. -/
def replaceDomain (host : String) (cookie : String) : String :=
  ⟨scanReplaceDomain host.data cookie.data⟩

/-- Whether the regex `domain=.+?(;|$)` matches anywhere in the list. -/
def regexMatchesDomain : List Char → Bool
  | [] => false
  | c :: cs => (tryMatchDomain (c :: cs)).isSome || regexMatchesDomain cs

/-- The value of the first `domain=` attribute of a cookie line: the
characters after the first occurrence of `domain=`, up to the next `;` or
the end of the line; `none` when the line has no `domain=` at all. -/
def domainValue : List Char → Option (List Char)
  | [] => none
  | c :: cs =>
    if dmn.isPrefixOf (c :: cs) then some (((c :: cs).drop 7).takeWhile (· ≠ ';'))
    else domainValue cs

/-- String-level wrapper of `domainValue`. -/
def domainAttr (cookie : String) : Option String :=
  (domainValue cookie.data).map fun l => ⟨l⟩

/-- A structured cookie as produced by `parseCookie`. -/
structure Cookie where
  name : String
  value : String
  options : String
deriving DecidableEq

/-- Modelled from the spec: `parseCookie` lives in `../../utils`, which is
not under `src/`; per the spec it parses a `Set-Cookie` line into a
structured cookie object — name before the first `=`, value up to the first
`;`, the remaining attributes as options. -/
def parseCookie (cookie : String) : Cookie :=
  let chars := cookie.data
  let name := chars.takeWhile (· ≠ '=')
  let afterName := (chars.dropWhile (· ≠ '=')).drop 1
  let value := afterName.takeWhile (· ≠ ';')
  let options := (afterName.dropWhile (· ≠ ';')).drop 1
  ⟨⟨name⟩, ⟨value⟩, ⟨options⟩⟩

/-! ### Checkout-client calls -/

/-- JS string truthiness. -/
def jsTruthyStr (s : String) : Bool := s ≠ ""

/-- JS truthiness of a possibly-missing string. -/
def jsTruthyOptStr : Option String → Bool
  | some s => s ≠ ""
  | none => false

/-- JS strict inequality `s !== v` between a string and a possibly-missing
string (a missing value never strictly equals a string). -/
def jsStrictNeqStrOpt (s : String) : Option String → Bool
  | some t => s ≠ t
  | none => true

/-- The GraphQL input type `OrderFormItemInput`, split into the fields kept
by `({ options, ...rest }) => rest` and the `options` field itself. -/
structure ItemPayload where
  id : String
  quantity : Nat
  seller : String
deriving DecidableEq

/-- An assembly-option input carried on an item.  Its contents are opaque to
the code under verification. -/
structure AssemblyOptionItemInput where
  assemblyId : String
deriving DecidableEq

/-- An element of the `items` argument of the `addItem` mutation. -/
structure OrderFormItemInput where
  payload : ItemPayload
  options : Option (List AssemblyOptionItemInput)
deriving DecidableEq

/-- The filter `({ options }) => !!options && options.length > 0`. -/
def OrderFormItemInput.hasOpts (it : OrderFormItemInput) : Bool :=
  match it.options with
  | some l => !l.isEmpty
  | none => false

/-- The arguments of the `addItem` mutation. -/
structure AddItemArgs where
  orderFormId : Option String
  items : Option (List OrderFormItemInput)
  salesChannel : Option String
deriving DecidableEq

/-- One call issued to the checkout client. -/
inductive Call where
  | fetchOrderForm
  | updateMarketingData (orderFormId : String) (payload : OrderFormMarketingData)
  | addItemCall (orderFormId : String) (items : List ItemPayload) (salesChannel : Option String)
  | attachOptions (item : OrderFormItemInput)
  | updateClientPreferences (orderFormId : String) (payload : ClientPreferencesData)
deriving DecidableEq

/-- Whether a call is the upstream add-item call. -/
def Call.isAddItem : Call → Bool
  | .addItemCall _ _ _ => true
  | _ => false

/-- Whether a call is an attach-options follow-up call. -/
def Call.isAttach : Call → Bool
  | .attachOptions _ => true
  | _ => false

/-- Whether a call is an order-form fetch. -/
def Call.isFetch : Call → Bool
  | .fetchOrderForm => true
  | _ => false

/-- Whether a call is the client-preferences (locale) update. -/
def Call.isUpdateCPD : Call → Bool
  | .updateClientPreferences _ _ => true
  | _ => false

/-- The sub-trace strictly after the first add-item call. -/
def afterAddItemCall (tr : List Call) : List Call :=
  (tr.dropWhile fun c => !c.isAddItem).drop 1

/-- A GraphQL-layer error escaping a resolver: either the typed
input-validation error thrown by the resolver itself, or a propagated
upstream failure. -/
inductive GQLError where
  | userInput (msg : String)
  | upstream (e : String)
deriving DecidableEq

/-- Whether a resolver outcome is a typed input-validation error. -/
def isUserInputErr : Except GQLError OrderForm → Bool
  | .error (.userInput _) => true
  | _ => false

/-! ### Locale sync and the `orderForm` query -/

/-- The guard computed inside `syncWithStoreLocale`:
`cultureInfo && clientPreferencesData.locale && cultureInfo !== clientPreferencesData.locale`,
with `clientPreferencesData` defaulted to `{ locale: cultureInfo }` when the
order form has none. -/
def shouldUpdateClientPreferencesData (orderForm : OrderForm) (cultureInfo : String) : Bool :=
  let clientPreferencesData := orderForm.clientPreferencesData.getD { locale := some cultureInfo }
  jsTruthyStr cultureInfo && jsTruthyOptStr clientPreferencesData.locale &&
    jsStrictNeqStrOpt cultureInfo clientPreferencesData.locale

/-- `syncWithStoreLocale` from the source.  `updateResp` is the settled
result of `checkout.updateOrderFormClientPreferencesData`; its rejection is
caught and the original order form returned.  Returns the calls issued and
the resulting order form. -/
def syncWithStoreLocale (orderForm : OrderForm) (cultureInfo : String)
    (updateResp : Except String OrderForm) : List Call × OrderForm :=
  let clientPreferencesData := orderForm.clientPreferencesData.getD { locale := some cultureInfo }
  if shouldUpdateClientPreferencesData orderForm cultureInfo then
    let newClientPreferencesData := { clientPreferencesData with locale := some cultureInfo }
    match updateResp with
    | .ok fresh =>
      ([Call.updateClientPreferences orderForm.orderFormId newClientPreferencesData], fresh)
    | .error _ =>
      ([Call.updateClientPreferences orderForm.orderFormId newClientPreferencesData], orderForm)
  else ([], orderForm)

/-- The environment observed by one invocation of the `orderForm` query:
the raw fetch response (assumed settled; a rejected fetch propagates before
any of the modelled behaviour), the segment culture info, the settled result
of the locale-update call, and the forwarding host. -/
structure OrderFormQueryEnv where
  setCookieHeaders : Option (List String)
  data : OrderForm
  cultureInfo : String
  updateResp : Except String OrderForm
  host : String
  checkoutCookie : String

/-- What one invocation of the `orderForm` query produces: the checkout
calls issued (the initial fetch, then any locale sync), the returned order
form, the whitelisted `Set-Cookie` lines, and the cookies set on the
outgoing response. -/
structure OrderFormQueryOut where
  calls : List Call
  result : OrderForm
  forwardedLines : List String
  cookiesSet : List Cookie

/-- The `orderForm` query from the source: fetch, locale sync, then the
cookie whitelist filter, domain rewrite, parse and re-set. -/
def orderFormQuery (env : OrderFormQueryEnv) : OrderFormQueryOut :=
  let syncOut := syncWithStoreLocale env.data env.cultureInfo env.updateResp
  let responseSetCookies := env.setCookieHeaders.getD []
  let forwardedSetCookies :=
    responseSetCookies.filter (isWhitelistedSetCookie env.checkoutCookie)
  let cleanCookies := forwardedSetCookies.map fun c => parseCookie (replaceDomain env.host c)
  { calls := Call.fetchOrderForm :: syncOut.1
    result := syncOut.2
    forwardedLines := forwardedSetCookies
    cookiesSet := cleanCookies }

/-! ### Pickup SLAs -/

/-- The nested address of a pickup store. -/
structure CheckoutAddress where
  addressId : Option String
deriving DecidableEq

/-- `pickupStoreInfo` of an SLA. -/
structure PickupStoreInfo where
  address : Option CheckoutAddress
deriving DecidableEq

/-- A shipping/pickup SLA of a simulation. -/
structure SLA where
  id : String
  deliveryChannel : String
  pickupStoreInfo : Option PickupStoreInfo
deriving DecidableEq

/-- One entry of `logisticsInfo` in a simulation result. -/
structure LogisticsInfoEntry where
  slas : Option (List SLA)
deriving DecidableEq

/-- A checkout simulation result. -/
structure SimulationResult where
  logisticsInfo : Option (List LogisticsInfoEntry)
deriving DecidableEq

/-- Ramda `pathOr [] ['logisticsInfo', '0', 'slas']`. -/
def simulationSlas (simulation : SimulationResult) : List SLA :=
  match simulation.logisticsInfo with
  | some (e :: _) => e.slas.getD []
  | _ => []

/-- Ramda `path ['pickupStoreInfo', 'address', 'addressId']`. -/
def slaAddressId (s : SLA) : Option String :=
  (s.pickupStoreInfo.bind (·.address)).bind (·.addressId)

/-- The `skuPickupSLAs` query, given the settled simulation response. -/
def skuPickupSLAs (simulation : SimulationResult) : List SLA :=
  (simulationSlas simulation).filter fun s => s.deliveryChannel = "pickup-in-point"

/-- The `skuPickupSLA` query, given the settled simulation response and the
`pickupId` argument. -/
def skuPickupSLA (simulation : SimulationResult) (pickupId : String) : Option SLA :=
  (skuPickupSLAs simulation).find? fun s => slaAddressId s = some pickupId

/-! ### The `addItem` mutation -/

/-- `getSession` from the source.  The call to the async resolver
`sessionQueries.getSession` is returned from inside `try` WITHOUT `await`:
a synchronous throw (outer `error`) is caught and degrades to `{}`, but the
returned promise is adopted as-is, so a rejected promise (inner `error`)
escapes the `try`/`catch`. -/
def getSession (call : Except String (Except String SessionFields)) :
    Except String SessionFields :=
  match call with
  | .error _ => .ok emptySession
  | .ok promise => promise

/-- Modelled from the spec: `addOptionsForItems` lives in
`./attachmentsHelper`, which is not under `src/`.  Per spec §4.1 step 3, it
issues one follow-up call per item with options, associating that item's
options with the item just added, using the previous item list to map. -/
def addOptionsForItems (withOptions : List OrderFormItemInput)
    ( _addedOrderForm : OrderForm) ( _previousItems : List OrderFormItem) : List Call :=
  withOptions.map Call.attachOptions

/-- The settled upstream responses observed by one invocation of the
`addItem` mutation, in program order. -/
structure AddItemEnv where
  orderFormFetch : Except String OrderForm
  sessionCall : Except String (Except String SessionFields)
  marketingUpdate : Except String Unit
  addItemResp : Except String OrderForm
  attachResult : Except String Unit
  refetch : Except String OrderForm

/-- The `addItem` mutation from the source: argument validation, the joint
await of the order-form fetch and `getSession`, the conditional marketing
update, the base add-item call with options stripped, the attach-options
follow-ups, and the conditional re-fetch.  Returns the checkout calls
issued (in order) and the outcome. -/
def addItem (env : AddItemEnv) (args : AddItemArgs) :
    List Call × Except GQLError OrderForm :=
  match args.orderFormId, args.items with
  | none, _ => ([], .error (.userInput "No order form id or items to add provided"))
  | some _, none => ([], .error (.userInput "No order form id or items to add provided"))
  | some orderFormId, some items =>
    match env.orderFormFetch, getSession env.sessionCall with
    | .error e, _ => ([Call.fetchOrderForm], .error (.upstream e))
    | .ok _, .error e => ([Call.fetchOrderForm], .error (.upstream e))
    | .ok fetched, .ok sessionData =>
      let marketingStep : List Call × Except String Unit :=
        if shouldUpdateMarketingData fetched.marketingData sessionData then
          ([Call.updateMarketingData orderFormId
              (buildNewMarketingData fetched.marketingData sessionData)],
            env.marketingUpdate)
        else ([], .ok ())
      match marketingStep with
      | (calls0, .error e) => (Call.fetchOrderForm :: calls0, .error (.upstream e))
      | (calls0, .ok _) =>
        let cleanItems := items.map OrderFormItemInput.payload
        let withOptions := items.filter OrderFormItemInput.hasOpts
        let callsAdd := calls0 ++ [Call.addItemCall orderFormId cleanItems args.salesChannel]
        match env.addItemResp with
        | .error e => (Call.fetchOrderForm :: callsAdd, .error (.upstream e))
        | .ok added =>
          let callsAttach := callsAdd ++ addOptionsForItems withOptions added fetched.items
          match env.attachResult with
          | .error e => (Call.fetchOrderForm :: callsAttach, .error (.upstream e))
          | .ok _ =>
            if withOptions.isEmpty then
              (Call.fetchOrderForm :: callsAttach, .ok added)
            else
              match env.refetch with
              | .error e =>
                (Call.fetchOrderForm :: (callsAttach ++ [Call.fetchOrderForm]),
                  .error (.upstream e))
              | .ok reFetched =>
                (Call.fetchOrderForm :: (callsAttach ++ [Call.fetchOrderForm]),
                  .ok reFetched)

/-! ### Concrete fixtures used by witnesses and counterexamples -/

/-- A pickup SLA whose nested address id is `"X"` (the spec's example). -/
def samplePickupSLA : SLA := ⟨"sla-pickup", "pickup-in-point", some ⟨some ⟨some "X"⟩⟩⟩

/-- A delivery SLA (the spec's example). -/
def sampleDeliverySLA : SLA := ⟨"sla-delivery", "delivery", none⟩

/-- The spec's example simulation: one logistics entry with a pickup SLA and
a delivery SLA. -/
def sampleSimulation : SimulationResult :=
  ⟨some [⟨some [samplePickupSLA, sampleDeliverySLA]⟩]⟩

/-- An order form without client preferences data. -/
def sampleOrderFormBare : OrderForm := ⟨"of-1", 100, [], none, none, false, none⟩

/-- An order form whose stored locale is `en-US`. -/
def sampleOrderFormEnUs : OrderForm :=
  { sampleOrderFormBare with clientPreferencesData := some ⟨some "en-US"⟩ }

/-- A query environment in which the locale sync is needed and the update
call fails. -/
def sampleQueryEnvLocaleFail : OrderFormQueryEnv :=
  ⟨some ["checkout.vtex.com=x", "foo=1"], sampleOrderFormEnUs, "pt-BR",
    .error "update-failed", "shop.example.com", "checkout.vtex.com"⟩

/-- A query environment whose order form has no client preferences data. -/
def sampleQueryEnvNoCpd : OrderFormQueryEnv :=
  ⟨none, sampleOrderFormBare, "pt-BR", .error "update-failed",
    "shop.example.com", "checkout.vtex.com"⟩

/-- Stored marketing data whose only field is `utmSource: "a"`. -/
def cexStoredMarketing : OrderFormMarketingData :=
  ⟨.undefined, .undefined, .str "a", .undefined, .undefined, .undefined, none⟩

/-- A session whose only UTM parameter is `utm_source: "a"`. -/
def cexSessionUtmA : SessionFields := ⟨some ⟨.str "a", .undefined, .undefined⟩, none, false⟩

/-- Stored marketing data with marketing tags containing falsy entries. -/
def sampleStoredWithTags : OrderFormMarketingData :=
  ⟨.undefined, .undefined, .str "b", .undefined, .undefined, .undefined, some [.str "t", .str "", .null]⟩

/-- A session whose only UTM parameter is `utm_source: "s"`. -/
def sampleSessionS : SessionFields := ⟨some ⟨.str "s", .undefined, .undefined⟩, none, false⟩

end StoreGraphql

namespace StoreGraphql

/-! ## Theorems -/

/-- C4: for every simulation result, `skuPickupSLAs` returns exactly the
SLAs of the first logistics-info entry whose `deliveryChannel` is
`pickup-in-point` (and no others), and `skuPickupSLA` returns the SLA among
those whose nested `addressId` equals `pickupId`, and `none` when no SLA
matches. -/
theorem skuPickupSLA_filter (simulation : SimulationResult) (pickupId : String) :
    (∀ s : SLA, s ∈ skuPickupSLAs simulation ↔
      s ∈ simulationSlas simulation ∧ s.deliveryChannel = "pickup-in-point") ∧
    (skuPickupSLA simulation pickupId = none ↔
      ∀ s ∈ skuPickupSLAs simulation, ¬ slaAddressId s = some pickupId) ∧
    (∀ s : SLA, skuPickupSLA simulation pickupId = some s →
      s ∈ skuPickupSLAs simulation ∧ slaAddressId s = some pickupId) := by
  refine ⟨fun s => ?_, ?_, fun s h => ?_⟩
  · simp [skuPickupSLAs, List.mem_filter]
  · simp [skuPickupSLA, List.find?_eq_none]
  · exact ⟨List.mem_of_find?_eq_some h, by simpa using List.find?_some h⟩

/-- Witness for C4, at the spec's own example: the pickup SLA is returned
for `pickupId = "X"`, and an unknown id yields `none`. -/
theorem skuPickupSLA_filter_witness :
    (samplePickupSLA ∈ skuPickupSLAs sampleSimulation ∧
      slaAddressId samplePickupSLA = some "X") ∧
    skuPickupSLA sampleSimulation "Z" = none :=
  ⟨(skuPickupSLA_filter sampleSimulation "X").2.2 samplePickupSLA (by decide),
    ((skuPickupSLA_filter sampleSimulation "Z").2.1).mpr (by decide)⟩

/-- The whitelist test, characterised through the cookie's name. -/
theorem isWhitelistedSetCookie_iff (checkoutCookie cookie : String) :
    isWhitelistedSetCookie checkoutCookie cookie = true ↔
      (cookieKey cookie = checkoutCookie ∨ cookieKey cookie = ".ASPXAUTH") := by
  simp [isWhitelistedSetCookie, SetCookieWhitelist, List.contains]

/-- C5: a `Set-Cookie` line processed by the `orderForm` query whose cookie
name is neither `CHECKOUT_COOKIE` nor `.ASPXAUTH` is dropped entirely, and
every line whose name is one of those two is forwarded. -/
theorem orderForm_cookie_whitelist (env : OrderFormQueryEnv) (l : String)
    (hl : l ∈ env.setCookieHeaders.getD []) :
    ((cookieKey l ≠ env.checkoutCookie ∧ cookieKey l ≠ ".ASPXAUTH") →
        l ∉ (orderFormQuery env).forwardedLines) ∧
    ((cookieKey l = env.checkoutCookie ∨ cookieKey l = ".ASPXAUTH") →
        l ∈ (orderFormQuery env).forwardedLines) := by
  constructor
  · intro hne hmem
    have := (List.mem_filter.mp hmem).2
    rcases (isWhitelistedSetCookie_iff env.checkoutCookie l).mp this with h | h
    · exact hne.1 h
    · exact hne.2 h
  · intro hwl
    exact List.mem_filter.mpr ⟨hl, (isWhitelistedSetCookie_iff env.checkoutCookie l).mpr hwl⟩

/-- Witness for C5: in a concrete environment the whitelisted checkout
cookie line is forwarded and the non-whitelisted `foo` line is dropped. -/
theorem orderForm_cookie_whitelist_witness :
    "checkout.vtex.com=x" ∈ (orderFormQuery sampleQueryEnvLocaleFail).forwardedLines ∧
    "foo=1" ∉ (orderFormQuery sampleQueryEnvLocaleFail).forwardedLines :=
  ⟨(orderForm_cookie_whitelist sampleQueryEnvLocaleFail "checkout.vtex.com=x"
        (by decide)).2 (Or.inl (by decide)),
    (orderForm_cookie_whitelist sampleQueryEnvLocaleFail "foo=1"
        (by decide)).1 (by decide)⟩

/-- C8: when the locale-sync update call is attempted and the upstream
update fails, the failure is caught and the `orderForm` query returns the
originally fetched order form unchanged. -/
theorem orderForm_locale_sync_failure_returns_original (env : OrderFormQueryEnv) (e : String)
    (hshould : shouldUpdateClientPreferencesData env.data env.cultureInfo = true)
    (hfail : env.updateResp = .error e) :
    (orderFormQuery env).result = env.data := by
  simp [orderFormQuery, syncWithStoreLocale, hshould, hfail]

/-- Witness for C8: a store locale `pt-BR` against a stored `en-US` locale
attempts the sync, the update fails, and the fetched order form comes back
unchanged. -/
theorem orderForm_locale_sync_failure_returns_original_witness :
    shouldUpdateClientPreferencesData sampleOrderFormEnUs "pt-BR" = true ∧
    (orderFormQuery sampleQueryEnvLocaleFail).result = sampleOrderFormEnUs :=
  ⟨by decide,
    orderForm_locale_sync_failure_returns_original sampleQueryEnvLocaleFail
      "update-failed" (by decide) rfl⟩

/-- C10: when the fetched order form has no `clientPreferencesData`, the
`orderForm` query issues no locale-update call (its only checkout call is
the initial fetch) and returns the order form unchanged, for every segment
culture info. -/
theorem orderForm_no_cpd_no_locale_update (env : OrderFormQueryEnv)
    (h : env.data.clientPreferencesData = none) :
    (orderFormQuery env).calls = [Call.fetchOrderForm] ∧
      (orderFormQuery env).result = env.data := by
  have hs : shouldUpdateClientPreferencesData env.data env.cultureInfo = false := by
    simp [shouldUpdateClientPreferencesData, h, jsTruthyStr, jsTruthyOptStr,
      jsStrictNeqStrOpt]
  constructor <;> simp [orderFormQuery, syncWithStoreLocale, hs]

/-- Witness for C10: a concrete order form without client preferences is
returned unchanged with no locale-update call. -/
theorem orderForm_no_cpd_no_locale_update_witness :
    (orderFormQuery sampleQueryEnvNoCpd).calls = [Call.fetchOrderForm] ∧
      (orderFormQuery sampleQueryEnvNoCpd).result = sampleOrderFormBare :=
  orderForm_no_cpd_no_locale_update sampleQueryEnvNoCpd (by decide)

/-- C2, counterexample to the claim as stated: with session
`{utm_source: "a"}` versus stored `{utmSource: "a"}` (all other fields absent
on both sides) the code triggers an update — the absent stored fields
default to `null` while the absent session fields are `undefined`, and
`null !== undefined` — although the claim's decision rule (at least one
field genuinely differing) says it must not. -/
theorem shouldUpdateMarketingData_claim_counterexample :
    shouldUpdateMarketingData (some cexStoredMarketing) cexSessionUtmA = true ∧
      claimShouldUpdateMarketingData (some cexStoredMarketing) cexSessionUtmA = false := by
  decide

/-- Inequality of two six-element lists is a componentwise disjunction. -/
theorem list6_ne_iff {α : Type} (a1 a2 a3 a4 a5 a6 b1 b2 b3 b4 b5 b6 : α) :
    ([a1, a2, a3, a4, a5, a6] ≠ [b1, b2, b3, b4, b5, b6]) ↔
      (a1 ≠ b1 ∨ a2 ≠ b2 ∨ a3 ≠ b3 ∨ a4 ≠ b4 ∨ a5 ≠ b5 ∨ a6 ≠ b6) := by
  simp only [ne_eq, List.cons.injEq, and_true]
  tauto

/-- C2 as amended: `shouldUpdateMarketingData` is truthy iff at least one of
the six session UTM values is JS-truthy (a non-empty string) and at least
one of the six pairs differs under JS strict inequality, where absent
stored fields are normalised to `null` while absent session fields remain
`undefined` (so a field absent on both sides already differs). -/
theorem shouldUpdateMarketingData_amended (st : Option OrderFormMarketingData)
    (se : SessionFields) :
    shouldUpdateMarketingData st se = true ↔
      ((sessionParams se).any JSVal.truthy = true ∧ storedParams st ≠ sessionParams se) := by
  simp only [sessionParams, storedParams]
  rw [list6_ne_iff]
  simp only [shouldUpdateMarketingData, getSessionMarketingParams, List.any_cons,
    List.any_nil, Bool.and_eq_true, Bool.or_eq_true, Bool.or_false,
    decide_eq_true_eq]
  tauto

/-- C3: evidence that a failed upstream session retrieval is NOT degraded to
an empty session by `getSession` — the promise is returned from inside the
`try` without `await`, so only a synchronous throw is caught; a rejected
promise escapes, and the `addItem` mutation rejects with the session error
instead of proceeding. -/
theorem getSession_rejection_propagates :
    getSession (.ok (.error "session-unavailable")) = .error "session-unavailable" ∧
    getSession (.error "sync-throw") = .ok emptySession ∧
    (addItem
        ⟨.ok sampleOrderFormBare, .ok (.error "session-unavailable"), .ok (),
          .ok sampleOrderFormBare, .ok (), .ok sampleOrderFormBare⟩
        ⟨some "of-1", some [], none⟩).2 = .error (.upstream "session-unavailable") := by
  refine ⟨rfl, rfl, ?_⟩
  rfl

/-- The full call trace and outcome of `addItem` when both arguments are
present and every upstream call succeeds. -/
theorem addItem_ok_eq (fetched : OrderForm) (sess : SessionFields)
    (added reFetched : OrderForm) (ofId : String) (its : List OrderFormItemInput)
    (sc : Option String) :
    addItem ⟨.ok fetched, .ok (.ok sess), .ok (), .ok added, .ok (), .ok reFetched⟩
        ⟨some ofId, some its, sc⟩ =
      (Call.fetchOrderForm ::
        ((if shouldUpdateMarketingData fetched.marketingData sess then
            [Call.updateMarketingData ofId (buildNewMarketingData fetched.marketingData sess)]
          else []) ++
          (Call.addItemCall ofId (its.map OrderFormItemInput.payload) sc ::
            ((its.filter OrderFormItemInput.hasOpts).map Call.attachOptions ++
              (if (its.filter OrderFormItemInput.hasOpts).isEmpty then []
                else [Call.fetchOrderForm])))),
        .ok (if (its.filter OrderFormItemInput.hasOpts).isEmpty then added else reFetched)) := by
  by_cases h1 : shouldUpdateMarketingData fetched.marketingData sess <;>
    by_cases h2 : (its.filter OrderFormItemInput.hasOpts).isEmpty = true <;>
      simp [addItem, getSession, addOptionsForItems, h1, h2]

/-- Attach-options calls are counted by the length of their item list, and
carry no add-item or fetch calls. -/
theorem attach_map_counts (l : List OrderFormItemInput) :
    (l.map Call.attachOptions).countP Call.isAttach = l.length ∧
    (l.map Call.attachOptions).countP Call.isAddItem = 0 ∧
    (l.map Call.attachOptions).countP Call.isFetch = 0 := by
  induction l with
  | nil => simp
  | cons a l ih =>
    simp [List.countP_cons, Call.isAttach, Call.isAddItem, Call.isFetch, ih.1, ih.2.1, ih.2.2]

/-- C1: an `addItem` invocation with non-null `orderFormId` and `items` and
succeeding upstream calls issues exactly one upstream add-item call, whose
payload is the items with the options field stripped; it issues one
attach-options follow-up per item with a non-empty options list; when no
item has options, no order-form fetch follows the add-item call and the
add-item response itself is returned; otherwise exactly one order-form
re-fetch follows and the re-fetched order form is returned. -/
theorem addItem_reconciler (fetched : OrderForm) (sess : SessionFields)
    (added reFetched : OrderForm) (ofId : String) (its : List OrderFormItemInput)
    (sc : Option String) :
    (addItem ⟨.ok fetched, .ok (.ok sess), .ok (), .ok added, .ok (), .ok reFetched⟩
        ⟨some ofId, some its, sc⟩).1.countP Call.isAddItem = 1 ∧
    Call.addItemCall ofId (its.map OrderFormItemInput.payload) sc ∈
      (addItem ⟨.ok fetched, .ok (.ok sess), .ok (), .ok added, .ok (), .ok reFetched⟩
        ⟨some ofId, some its, sc⟩).1 ∧
    (addItem ⟨.ok fetched, .ok (.ok sess), .ok (), .ok added, .ok (), .ok reFetched⟩
        ⟨some ofId, some its, sc⟩).1.countP Call.isAttach =
      (its.filter OrderFormItemInput.hasOpts).length ∧
    (∀ it : OrderFormItemInput,
      Call.attachOptions it ∈
          (addItem ⟨.ok fetched, .ok (.ok sess), .ok (), .ok added, .ok (), .ok reFetched⟩
            ⟨some ofId, some its, sc⟩).1 ↔
        it ∈ its.filter OrderFormItemInput.hasOpts) ∧
    (afterAddItemCall
        (addItem ⟨.ok fetched, .ok (.ok sess), .ok (), .ok added, .ok (), .ok reFetched⟩
          ⟨some ofId, some its, sc⟩).1).countP Call.isFetch =
      (if (its.filter OrderFormItemInput.hasOpts).isEmpty then 0 else 1) ∧
    (addItem ⟨.ok fetched, .ok (.ok sess), .ok (), .ok added, .ok (), .ok reFetched⟩
        ⟨some ofId, some its, sc⟩).1.countP Call.isFetch =
      (if (its.filter OrderFormItemInput.hasOpts).isEmpty then 1 else 2) ∧
    (addItem ⟨.ok fetched, .ok (.ok sess), .ok (), .ok added, .ok (), .ok reFetched⟩
        ⟨some ofId, some its, sc⟩).2 =
      .ok (if (its.filter OrderFormItemInput.hasOpts).isEmpty then added else reFetched) := by
  rw [addItem_ok_eq]
  by_cases h1 : shouldUpdateMarketingData fetched.marketingData sess <;>
    by_cases h2 : (its.filter OrderFormItemInput.hasOpts).isEmpty = true <;>
      simp [h1, h2, List.countP_cons, List.countP_append, Call.isAddItem, Call.isAttach,
        Call.isFetch, (attach_map_counts _).1, (attach_map_counts _).2.1,
        (attach_map_counts _).2.2, afterAddItemCall, List.dropWhile_cons]

/-- C7: the `addItem` mutation throws the typed input-validation error with
no upstream call issued whenever `orderFormId` or `items` is null/absent,
and never produces that error when both are present. -/
theorem addItem_input_validation (env : AddItemEnv) (sc : Option String) :
    (∀ itemsArg : Option (List OrderFormItemInput),
      addItem env ⟨none, itemsArg, sc⟩ =
        ([], .error (.userInput "No order form id or items to add provided"))) ∧
    (∀ i : String,
      addItem env ⟨some i, none, sc⟩ =
        ([], .error (.userInput "No order form id or items to add provided"))) ∧
    (∀ (i : String) (its : List OrderFormItemInput),
      isUserInputErr (addItem env ⟨some i, some its, sc⟩).2 = false) := by
  refine ⟨fun itemsArg => rfl, fun i => rfl, fun i its => ?_⟩
  rcases env with ⟨f, s, m, a, att, r⟩
  unfold addItem
  rcases f with fe | fetched
  · rfl
  · rcases hgs : getSession s with e | sess
    · simp [hgs, isUserInputErr]
    · simp only [hgs]
      by_cases h1 : shouldUpdateMarketingData fetched.marketingData sess <;>
        rcases m with me | mu <;>
          rcases a with ae | added <;>
            rcases att with atte | attok <;>
              rcases r with re | ref <;>
                by_cases h2 : (its.filter OrderFormItemInput.hasOpts).isEmpty = true <;>
                  simp [h1, h2, isUserInputErr]

/-- C9: whenever `addItem` performs a marketing-data update, the payload of
that update merges the stored and session values — the six UTM fields come
from the session when the session object is non-empty, and are the spread
of the stored object otherwise — and its `marketingTags` field is absent
when the stored one was absent/null, and otherwise holds exactly the stored
entries with the falsy ones filtered out. -/
theorem addItem_marketing_payload_normalized (fetched : OrderForm) (sess : SessionFields)
    (added reFetched : OrderForm) (ofId : String) (its : List OrderFormItemInput)
    (sc : Option String)
    (h : shouldUpdateMarketingData fetched.marketingData sess = true) :
    Call.updateMarketingData ofId (buildNewMarketingData fetched.marketingData sess) ∈
      (addItem ⟨.ok fetched, .ok (.ok sess), .ok (), .ok added, .ok (), .ok reFetched⟩
        ⟨some ofId, some its, sc⟩).1 ∧
    (buildNewMarketingData fetched.marketingData sess).marketingTags =
      (fetched.marketingData.bind OrderFormMarketingData.marketingTags).map
        (List.filter JSVal.truthy) ∧
    (sess.isNonEmptyObj = true →
      (buildNewMarketingData fetched.marketingData sess).utmCampaign =
          pathUtm sess (·.campaign) ∧
        (buildNewMarketingData fetched.marketingData sess).utmMedium =
          pathUtm sess (·.medium) ∧
        (buildNewMarketingData fetched.marketingData sess).utmSource =
          pathUtm sess (·.source) ∧
        (buildNewMarketingData fetched.marketingData sess).utmiCampaign =
          pathUtmi sess (·.campaign) ∧
        (buildNewMarketingData fetched.marketingData sess).utmiPart =
          pathUtmi sess (·.part) ∧
        (buildNewMarketingData fetched.marketingData sess).utmipage =
          pathUtmi sess (·.page)) ∧
    (sess.isNonEmptyObj = false →
      (buildNewMarketingData fetched.marketingData sess).utmCampaign =
          spreadField fetched.marketingData (·.utmCampaign) ∧
        (buildNewMarketingData fetched.marketingData sess).utmMedium =
          spreadField fetched.marketingData (·.utmMedium) ∧
        (buildNewMarketingData fetched.marketingData sess).utmSource =
          spreadField fetched.marketingData (·.utmSource) ∧
        (buildNewMarketingData fetched.marketingData sess).utmiCampaign =
          spreadField fetched.marketingData (·.utmiCampaign) ∧
        (buildNewMarketingData fetched.marketingData sess).utmiPart =
          spreadField fetched.marketingData (·.utmiPart) ∧
        (buildNewMarketingData fetched.marketingData sess).utmipage =
          spreadField fetched.marketingData (·.utmipage)) := by
  refine ⟨?_, ?_, ?_, ?_⟩
  · rw [addItem_ok_eq]
    simp [h]
  · by_cases hne : sess.isNonEmptyObj <;>
      cases hb : fetched.marketingData.bind OrderFormMarketingData.marketingTags <;>
        simp [buildNewMarketingData, hne, hb]
  · intro hne
    cases hb : fetched.marketingData.bind OrderFormMarketingData.marketingTags <;>
      simp [buildNewMarketingData, hne, hb]
  · intro hne
    cases hb : fetched.marketingData.bind OrderFormMarketingData.marketingTags <;>
      simp [buildNewMarketingData, hne, hb]

/-- Witness for C9: with stored `utmSource: "b"` and tags
`["t", "", null]` and a session carrying `utm_source: "s"`, the update is
needed, its payload is recorded on the trace, and the tags are filtered to
`["t"]`. -/
theorem addItem_marketing_payload_normalized_witness :
    shouldUpdateMarketingData (some sampleStoredWithTags) sampleSessionS = true ∧
    Call.updateMarketingData "of-1"
        (buildNewMarketingData (some sampleStoredWithTags) sampleSessionS) ∈
      (addItem ⟨.ok { sampleOrderFormBare with marketingData := some sampleStoredWithTags },
          .ok (.ok sampleSessionS), .ok (), .ok sampleOrderFormBare, .ok (),
          .ok sampleOrderFormBare⟩
        ⟨some "of-1", some [], none⟩).1 ∧
    (buildNewMarketingData (some sampleStoredWithTags) sampleSessionS).marketingTags =
      ((some sampleStoredWithTags).bind OrderFormMarketingData.marketingTags).map
        (List.filter JSVal.truthy) ∧
    (buildNewMarketingData (some sampleStoredWithTags) sampleSessionS).utmSource =
      pathUtm sampleSessionS (·.source) :=
  ⟨by decide,
    (addItem_marketing_payload_normalized
        { sampleOrderFormBare with marketingData := some sampleStoredWithTags }
        sampleSessionS sampleOrderFormBare sampleOrderFormBare "of-1" [] none
        (by decide)).1,
    (addItem_marketing_payload_normalized
        { sampleOrderFormBare with marketingData := some sampleStoredWithTags }
        sampleSessionS sampleOrderFormBare sampleOrderFormBare "of-1" [] none
        (by decide)).2.1,
    ((addItem_marketing_payload_normalized
        { sampleOrderFormBare with marketingData := some sampleStoredWithTags }
        sampleSessionS sampleOrderFormBare sampleOrderFormBare "of-1" [] none
        (by decide)).2.2.1 (by decide)).2.2.1⟩

/-- Taking up to the first `;` of `host ++ ';' :: s` yields `host` when the
host contains no `;`. -/
theorem takeWhile_ne_semi_append (host s : List Char) (h : ';' ∉ host) :
    (host ++ ';' :: s).takeWhile (· ≠ ';') = host := by
  induction host with
  | nil => simp [List.takeWhile_cons]
  | cons c cs ih =>
    have hc : c ≠ ';' := fun hcc => h (hcc ▸ List.mem_cons_self c cs)
    have hcs : ';' ∉ cs := fun hm => h (List.mem_cons_of_mem c hm)
    simpa [List.takeWhile_cons, hc] using ih hcs

/-- On a list of `.`-matchable characters, `lazyThenSemiOrEnd` always
succeeds. -/
theorem lazyThenSemiOrEnd_isSome (l : List Char) (h : ∀ c ∈ l, dotChar c = true) :
    (lazyThenSemiOrEnd l).isSome = true := by
  induction l with
  | nil => simp [lazyThenSemiOrEnd]
  | cons c cs ih =>
    by_cases hc : c = ';'
    · simp [lazyThenSemiOrEnd, hc]
    · have := h c (List.mem_cons_self c cs)
      simp [lazyThenSemiOrEnd, hc, this, ih fun x hx => h x (List.mem_cons_of_mem c hx)]

/-- On a non-empty list of `.`-matchable characters, `.+?(;|$)` matches. -/
theorem dotPlusLazy_isSome (l : List Char) (h : ∀ c ∈ l, dotChar c = true)
    (hne : l ≠ []) : (dotPlusLazy l).isSome = true := by
  cases l with
  | nil => exact absurd rfl hne
  | cons c cs =>
    have hc := h c (List.mem_cons_self c cs)
    simp [dotPlusLazy, hc,
      lazyThenSemiOrEnd_isSome cs fun x hx => h x (List.mem_cons_of_mem c hx)]

/-- `tryMatchDomain` on a list starting with the literal `domain=`. -/
theorem tryMatchDomain_dmn_append (t : List Char) :
    tryMatchDomain (dmn ++ t) = dotPlusLazy t := rfl

/-- Inversion of a successful `tryMatchDomain`. -/
theorem tryMatchDomain_some_inv {l s : List Char} (h : tryMatchDomain l = some s) :
    ∃ rest, l = dmn ++ rest ∧ dotPlusLazy rest = some s := by
  unfold tryMatchDomain at h
  split at h
  · next rest => exact ⟨rest, by simp [dmn], h⟩
  · exact absurd h (by simp)

/-- `domain=` cannot start strictly inside an earlier copy of itself: for a
non-empty `r` of length at most 6, `domain=` is not a prefix of
`r ++ domain= ++ t`. -/
theorem dmn_unbordered (r t : List Char) (h1 : r ≠ []) (h2 : r.length ≤ 6) :
    ¬ (dmn.isPrefixOf (r ++ (dmn ++ t)) = true) := by
  match r, h1 with
  | [a], _ => simp [dmn, List.isPrefixOf]
  | [a, b], _ => simp [dmn, List.isPrefixOf]
  | [a, b, c], _ => simp [dmn, List.isPrefixOf]
  | [a, b, c, d], _ => simp [dmn, List.isPrefixOf]
  | [a, b, c, d, e], _ => simp [dmn, List.isPrefixOf]
  | [a, b, c, d, e, f], _ => simp [dmn, List.isPrefixOf]
  | a :: b :: c :: d :: e :: f :: g :: l, _ => simp at h2

/-- Shape of `scanReplaceDomain` when the regex matches somewhere on a list
of `.`-matchable characters: the output splits as an untouched prefix `p`,
the replacement `domain= ++ host ++ ;`, and the input remaining after the
match; `p` is the corresponding prefix of the input and contains no
occurrence of `domain=`. -/
theorem scanReplaceDomain_shape (host : List Char) :
    ∀ cs : List Char, (∀ c ∈ cs, dotChar c = true) → regexMatchesDomain cs = true →
      ∃ p rest s, scanReplaceDomain host cs = p ++ (dmn ++ (host ++ ';' :: s)) ∧
        cs = p ++ (dmn ++ rest) ∧ rest ≠ [] ∧
        ∀ q r, p = q ++ r → ¬ (dmn.isPrefixOf r = true) := by
  intro cs
  induction cs with
  | nil => intro _ hm; simp [regexMatchesDomain] at hm
  | cons c cs ih =>
    intro hdot hm
    cases htm : tryMatchDomain (c :: cs) with
    | some suffix =>
      obtain ⟨rest, heq, hdpl⟩ := tryMatchDomain_some_inv htm
      refine ⟨[], rest, suffix, ?_, by simpa using heq, ?_, ?_⟩
      · simp [scanReplaceDomain, htm]
      · intro hrest
        subst hrest
        simp [dotPlusLazy] at hdpl
      · intro q r hqr hpre
        have hr : r = [] := (List.append_eq_nil.mp hqr.symm).2
        subst hr
        simp [dmn, List.isPrefixOf] at hpre
    | none =>
      have hm' : regexMatchesDomain cs = true := by
        have h0 := hm
        simp [regexMatchesDomain, htm] at h0
        exact h0
      have hdot' : ∀ x ∈ cs, dotChar x = true := fun x hx =>
        hdot x (List.mem_cons_of_mem _ hx)
      obtain ⟨p, rest, s, hscan, hcs, hrne, hfree⟩ := ih hdot' hm'
      refine ⟨c :: p, rest, s, ?_, by simp [hcs], hrne, ?_⟩
      · simp [scanReplaceDomain, htm, hscan]
      · intro q r hqr hpre
        cases q with
        | cons a q' =>
          have hqr' : c = a ∧ p = q' ++ r := by simpa using hqr
          exact hfree q' r hqr'.2 hpre
        | nil =>
          have hr : c :: p = r := by simpa using hqr
          subst hr
          obtain ⟨t0, ht0⟩ := List.isPrefixOf_iff_prefix.mp hpre
          have hfull : c :: cs = dmn ++ (t0 ++ (dmn ++ rest)) := by
            calc c :: cs = c :: (p ++ (dmn ++ rest)) := by rw [hcs]
            _ = (c :: p) ++ (dmn ++ rest) := by simp
            _ = (dmn ++ t0) ++ (dmn ++ rest) := by rw [ht0]
            _ = dmn ++ (t0 ++ (dmn ++ rest)) := by simp
          have hsome : (dotPlusLazy (t0 ++ (dmn ++ rest))).isSome = true := by
            apply dotPlusLazy_isSome
            · intro x hx
              apply hdot
              rw [hfull]
              exact List.mem_append_right _ hx
            · simp [dmn]
          rw [hfull, tryMatchDomain_dmn_append] at htm
          rw [htm] at hsome
          simp at hsome

/-- `domainValue` of a list shaped as clean prefix, `domain=`, host and a
closing `;`: it reads off exactly the host. -/
theorem domainValue_free_prefix (host s : List Char) (hsemi : ';' ∉ host) :
    ∀ p : List Char, (∀ q r, p = q ++ r → ¬ (dmn.isPrefixOf r = true)) →
      domainValue (p ++ (dmn ++ (host ++ ';' :: s))) = some host := by
  intro p
  induction p with
  | nil =>
    intro _
    have hpre : dmn.isPrefixOf (dmn ++ (host ++ ';' :: s)) = true :=
      List.isPrefixOf_iff_prefix.mpr ⟨_, rfl⟩
    have hpre2 :
        dmn.isPrefixOf ('d' :: 'o' :: 'm' :: 'a' :: 'i' :: 'n' :: '=' :: (host ++ ';' :: s)) =
          true := hpre
    show domainValue ('d' :: 'o' :: 'm' :: 'a' :: 'i' :: 'n' :: '=' :: (host ++ ';' :: s)) =
      some host
    rw [domainValue, if_pos hpre2]
    show some ((host ++ ';' :: s).takeWhile (· ≠ ';')) = some host
    rw [takeWhile_ne_semi_append host s hsemi]
  | cons c p' ih =>
    intro hfree
    have hnp : ¬ (dmn.isPrefixOf (c :: (p' ++ (dmn ++ (host ++ ';' :: s)))) = true) := by
      intro hpre
      by_cases hlen : (c :: p').length ≤ 6
      · exact dmn_unbordered (c :: p') (host ++ ';' :: s) (by simp) hlen
          (by simpa using hpre)
      · push_neg at hlen
        have hp : dmn <+: ((c :: p') ++ (dmn ++ (host ++ ';' :: s))) :=
          List.isPrefixOf_iff_prefix.mp (by simpa using hpre)

        have hlen7 : dmn.length ≤ (c :: p').length := by
          simp only [List.length_cons] at hlen ⊢
          simp only [dmn, List.length_cons, List.length_nil]
          omega
        have e1 := List.prefix_iff_eq_take.mp hp
        rw [List.take_append_eq_append_take, Nat.sub_eq_zero_of_le hlen7,
          List.take_zero, List.append_nil] at e1
        have h2 := List.take_prefix dmn.length (c :: p')
        rw [← e1] at h2
        exact hfree [] (c :: p') rfl (List.isPrefixOf_iff_prefix.mpr h2)
    show domainValue (c :: (p' ++ (dmn ++ (host ++ ';' :: s)))) = some host
    rw [domainValue, if_neg hnp]
    exact ih fun q r hqr => hfree (c :: q) r (by simp [hqr])

/-- C6, counterexample to the claim as stated: a whitelisted `Set-Cookie`
line with no `domain=` attribute (for example `.ASPXAUTH=token`) is
forwarded unchanged by `replaceDomain`, so the domain attribute of the
result is not the forwarding host — the regex replaces only an existing
`domain=` attribute. -/
theorem replaceDomain_claim_counterexample :
    ¬ (domainAttr (replaceDomain "forward.host" ".ASPXAUTH=token") =
        some "forward.host") := by
  decide

/-- C6 as amended: for every cookie line that contains `domain=` followed by
at least one character (so that the regex `domain=.+?(;|$)` matches) and no
line-terminator characters, and every host without `;`, the first `domain=`
attribute of `replaceDomain host cookie` is exactly the host. -/
theorem replaceDomain_rewrites_first_domain (host cookie : String)
    (h1 : cookie.data.all dotChar = true)
    (h2 : regexMatchesDomain cookie.data = true)
    (h3 : (';' : Char) ∉ host.data) :
    domainAttr (replaceDomain host cookie) = some host := by
  obtain ⟨p, rest, s, hscan, -, -, hfree⟩ :=
    scanReplaceDomain_shape host.data cookie.data
      (by simpa [List.all_eq_true] using h1) h2
  have hd : domainAttr (replaceDomain host cookie) =
      (domainValue (scanReplaceDomain host.data cookie.data)).map (fun l => String.mk l) := rfl
  rw [hd, hscan, domainValue_free_prefix host.data s h3 p hfree]
  rfl

/-- Witness for C6 as amended: a realistic whitelisted cookie line carrying
`domain=old.com` has its domain attribute rewritten to the forwarding
host. -/
theorem replaceDomain_rewrites_first_domain_witness :
    ("checkout.vtex.com=abc; domain=old.com; path=/".data.all dotChar = true) ∧
    (regexMatchesDomain "checkout.vtex.com=abc; domain=old.com; path=/".data = true) ∧
    ((';' : Char) ∉ "new.host".data) ∧
    domainAttr (replaceDomain "new.host" "checkout.vtex.com=abc; domain=old.com; path=/") =
      some "new.host" :=
  ⟨by decide, by decide, by decide,
    replaceDomain_rewrites_first_domain "new.host"
      "checkout.vtex.com=abc; domain=old.com; path=/" (by decide) (by decide) (by decide)⟩

end StoreGraphql



